import Mathlib

/-!
Shallow embedding of the core of the hypervisor monitor in
`src/vmm/src/vm.rs`: the CPUID patching policy, the vCPU exit loop
dispatch and run-error classification, the epoll dispatch table of
`EpollContext`, the monitor control loop, the device registration on the
I/O bus, and the vCPU rendezvous barrier arity.

Machine integers (`u32` register values, `u8` vcpu counts, port numbers)
are modelled as `Nat`, with an explicit `% 256` where the Rust `u8`
arithmetic can wrap.  Panicking control paths are modelled with
`Option`: `none` stands for a panic of the Rust code (an `unwrap` of
`None`, or an out-of-bounds `Vec` index).
-/

namespace VmmVm

/-- A CPUID leaf entry (`kvm_cpuid_entry2`): `function` and `index` select
the leaf; the four register fields hold the `u32` values reported for it. -/
structure CpuidEntry where
  function : Nat
  index : Nat
  flags : Nat
  eax : Nat
  ebx : Nat
  ecx : Nat
  edx : Nat
  deriving DecidableEq

/-- `ECX_HYPERVISOR_SHIFT` from vm.rs: bit position of the hypervisor bit. -/
def ECX_HYPERVISOR_SHIFT : Nat := 31

/-- Body of the `for entry in entries.iter_mut()` loop of `Vm::patch_cpuid`:
for the leaf with `function == 1` and `index == 0`, OR bit 31 into ECX;
every other entry is left untouched. -/
def patchEntry (e : CpuidEntry) : CpuidEntry :=
  if e.function = 1 then
    if e.index = 0 then { e with ecx := e.ecx ||| (1 <<< ECX_HYPERVISOR_SHIFT) } else e
  else e

/-- `Vm::patch_cpuid`: patch every entry of the CPUID image in place. -/
def patch_cpuid (cs : List CpuidEntry) : List CpuidEntry := cs.map patchEntry

/-- C1: `patch_cpuid` modifies only the ECX field of entries with
`function == 1` and `index == 0`, setting bit 31 of ECX there; every
other entry, and every other field of the patched entries, is
bit-identical to the input image. -/
theorem patch_cpuid_frame (cs : List CpuidEntry) (i : Nat) (e : CpuidEntry)
    (h : cs[i]? = some e) :
    (patch_cpuid cs).length = cs.length ∧
    (patch_cpuid cs)[i]? = some (patchEntry e) ∧
    (e.function = 1 ∧ e.index = 0 →
      (patchEntry e).ecx = e.ecx ||| (1 <<< 31) ∧
      Nat.testBit (patchEntry e).ecx 31 = true ∧
      (patchEntry e).function = e.function ∧
      (patchEntry e).index = e.index ∧
      (patchEntry e).flags = e.flags ∧
      (patchEntry e).eax = e.eax ∧
      (patchEntry e).ebx = e.ebx ∧
      (patchEntry e).edx = e.edx) ∧
    (¬(e.function = 1 ∧ e.index = 0) → patchEntry e = e) := by
  refine ⟨by simp [patch_cpuid], ?_, ?_, ?_⟩
  · simp [patch_cpuid, List.getElem?_map, h]
  · rintro ⟨hf, hi⟩
    have hp : patchEntry e = { e with ecx := e.ecx ||| (1 <<< ECX_HYPERVISOR_SHIFT) } := by
      simp [patchEntry, hf, hi]
    rw [hp]
    refine ⟨rfl, ?_, rfl, rfl, rfl, rfl, rfl, rfl⟩
    simp [Nat.testBit_or]
    exact Or.inr (by decide)
  · intro hne
    unfold patchEntry
    split
    · split
      · exact absurd ⟨by assumption, by assumption⟩ hne
      · rfl
    · rfl

/-- Witness for C1 at a concrete one-entry image. -/
theorem patch_cpuid_frame_witness :
    ([(⟨1, 0, 0, 0, 0, 0, 0⟩ : CpuidEntry)])[0]? = some (⟨1, 0, 0, 0, 0, 0, 0⟩ : CpuidEntry) ∧
    (patch_cpuid [⟨1, 0, 0, 0, 0, 0, 0⟩])[0]? = some (patchEntry ⟨1, 0, 0, 0, 0, 0, 0⟩) :=
  ⟨rfl, (patch_cpuid_frame [⟨1, 0, 0, 0, 0, 0, 0⟩] 0 ⟨1, 0, 0, 0, 0, 0, 0⟩ rfl).2.1⟩

/-- Patching a single entry twice is the same as patching it once. -/
lemma patchEntry_idem (e : CpuidEntry) : patchEntry (patchEntry e) = patchEntry e := by
  unfold patchEntry
  by_cases hf : e.function = 1
  · by_cases hi : e.index = 0
    · simp [hf, hi, Nat.or_assoc]
    · simp [hf, hi]
  · simp [hf]

/-- C9: `patch_cpuid` is idempotent: applying it twice yields the same
image as applying it once. -/
theorem patch_cpuid_idem (cs : List CpuidEntry) :
    patch_cpuid (patch_cpuid cs) = patch_cpuid cs := by
  unfold patch_cpuid
  rw [List.map_map]
  have hc : patchEntry ∘ patchEntry = patchEntry := funext patchEntry_idem
  rw [hc]

/-- The tagged exit reasons returned by `Vcpu::run` (the `kvm_ioctls`
`VcpuExit` variants matched in the exit loop of `Vm::start`).  The data
buffers are abstracted to the port / address and the buffer length. -/
inductive VcpuExit where
  | IoIn (port : Nat) (len : Nat)
  | IoOut (port : Nat) (len : Nat)
  | MmioRead (addr : Nat) (len : Nat)
  | MmioWrite (addr : Nat) (len : Nat)
  | Unknown
  | Exception
  | Hypercall
  | Debug
  | Hlt
  | IrqWindowOpen
  | Shutdown
  | FailEntry
  | Intr
  | SetTpr
  | TprAccess
  | S390Sieic
  | S390Reset
  | Dcr
  | Nmi
  | InternalError
  | Osi
  | PaprHcall
  | S390Ucontrol
  | Watchdog
  | S390Tsch
  | Epr
  | SystemEvent
  | S390Stsi
  | IoapicEoi
  | Hyperv
  deriving DecidableEq

/-- The observable effect of one `Ok` arm of the exit-loop match in
`Vm::start`: a dispatch into the I/O bus, a `println!` log line, or
nothing at all. -/
inductive VcpuAction where
  | busRead (port : Nat)
  | busWrite (port : Nat)
  | logMmioRead (addr : Nat)
  | logMmioWrite (addr : Nat)
  | logUnknown
  | logException
  | logHlt
  | nop
  deriving DecidableEq

/-- The `Ok(run)` match of the exit loop in `Vm::start`, arm by arm:
`IoIn` and `IoOut` are dispatched to `io_bus.read` / `io_bus.write`,
`MmioRead`, `MmioWrite`, `Unknown`, `Exception` and `Hlt` are only
logged, and every remaining variant has an empty arm. -/
def handleExit : VcpuExit → VcpuAction
  | .IoIn port _ => .busRead port
  | .IoOut port _ => .busWrite port
  | .MmioRead addr _ => .logMmioRead addr
  | .MmioWrite addr _ => .logMmioWrite addr
  | .Unknown => .logUnknown
  | .Exception => .logException
  | .Hlt => .logHlt
  | _ => .nop

/-- A result of `Vcpu::run` as matched by the exit loop: either an exit
reason, or an `Error::VcpuRun` wrapping an `io::Error` whose
`raw_os_error()` is the carried `Option Int`. -/
inductive RunResult where
  | ok (e : VcpuExit)
  | vcpuRunErr (errno : Option Int)
  deriving DecidableEq

/-- What one iteration of the exit loop does with a `run()` result:
perform an action and loop again, or break out of the loop. -/
inductive LoopStep where
  | cont (a : VcpuAction)
  | brk
  deriving DecidableEq

/-- `libc::EAGAIN` on Linux x86_64. -/
def EAGAIN : Int := 11

/-- `libc::EINTR` on Linux x86_64. -/
def EINTR : Int := 4

/-- One iteration of the exit loop of `Vm::start` on a `run()` result.
On `Ok` the matched action is performed and the loop continues.  On
`Err(Error::VcpuRun(e))` the code evaluates `e.raw_os_error().unwrap()`:
a missing errno makes the `unwrap` panic (modelled as `none`); `EAGAIN`
and `EINTR` fall into the silent-retry arm; every other errno prints a
diagnostic and breaks. -/
def vcpuLoopBody : RunResult → Option LoopStep
  | .ok e => some (.cont (handleExit e))
  | .vcpuRunErr none => none
  | .vcpuRunErr (some n) =>
    if n = EAGAIN ∨ n = EINTR then some (.cont .nop) else some .brk

/-- Counterexample for C2 as stated: an `Unknown` exit is not a no-op;
the code logs it (`println!("Unknown")`), exactly as it logs `Hlt`. -/
theorem vcpu_exit_unknown_not_nop :
    handleExit VcpuExit.Unknown = VcpuAction.logUnknown ∧
    handleExit VcpuExit.Unknown ≠ VcpuAction.nop := by
  exact ⟨rfl, by decide⟩

/-- C2 (amended): for every `Ok` result the loop continues after the
dispatched action; `IoIn`/`IoOut` go to the I/O bus, `MmioRead`,
`MmioWrite`, `Hlt`, `Unknown` and `Exception` are only logged, and every
exit that is none of those is a no-op. -/
theorem vcpu_exit_dispatch (e : VcpuExit) :
    vcpuLoopBody (.ok e) = some (.cont (handleExit e)) ∧
    (∀ p l, handleExit (.IoIn p l) = .busRead p) ∧
    (∀ p l, handleExit (.IoOut p l) = .busWrite p) ∧
    (∀ a l, handleExit (.MmioRead a l) = .logMmioRead a) ∧
    (∀ a l, handleExit (.MmioWrite a l) = .logMmioWrite a) ∧
    handleExit .Hlt = .logHlt ∧
    handleExit .Unknown = .logUnknown ∧
    handleExit .Exception = .logException ∧
    (handleExit e = .nop ∨
      e = .Hlt ∨ e = .Unknown ∨ e = .Exception ∨
      (∃ p l, e = .IoIn p l) ∨ (∃ p l, e = .IoOut p l) ∨
      (∃ a l, e = .MmioRead a l) ∨ (∃ a l, e = .MmioWrite a l)) := by
  refine ⟨rfl, fun p l => rfl, fun p l => rfl, fun a l => rfl, fun a l => rfl,
    rfl, rfl, rfl, ?_⟩
  cases e <;> simp [handleExit]

/-- C3: classification of a `run()` failure that carries an OS errno
`n`: the loop silently retries exactly when `n` is `EAGAIN` (11) or
`EINTR` (4), and breaks (terminating the vCPU thread's loop) exactly
otherwise.  A failure with no errno is the subject of C10. -/
theorem vcpu_run_error_classification (n : Int) :
    (vcpuLoopBody (.vcpuRunErr (some n)) = some (.cont .nop) ↔ (n = 11 ∨ n = 4)) ∧
    (vcpuLoopBody (.vcpuRunErr (some n)) = some .brk ↔ ¬(n = 11 ∨ n = 4)) := by
  have hb : vcpuLoopBody (.vcpuRunErr (some n)) =
      if n = EAGAIN ∨ n = EINTR then some (.cont .nop) else some .brk := rfl
  rw [hb]
  by_cases hc : n = 11 ∨ n = 4
  · simp [EAGAIN, EINTR, hc]
  · simp [EAGAIN, EINTR, hc]

/-- C10: when the `run()` failure carries no raw OS error code the
classification panics (`raw_os_error().unwrap()` of `None`), modelled as
`none`; with any errno present the loop body is total. -/
theorem vcpu_run_error_no_errno_panics :
    vcpuLoopBody (.vcpuRunErr none) = none ∧
    ∀ n : Int, (vcpuLoopBody (.vcpuRunErr (some n))).isSome = true := by
  refine ⟨rfl, fun n => ?_⟩
  have hb : vcpuLoopBody (.vcpuRunErr (some n)) =
      if n = EAGAIN ∨ n = EINTR then some (.cont .nop) else some .brk := rfl
  rw [hb]
  split <;> rfl

/-- The logical event kinds held in the dispatch table (`EpollDispatch`
in vm.rs). -/
inductive EpollDispatch where
  | Exit
  | Stdin
  deriving DecidableEq

/-- The dispatch table of a fresh `EpollContext::new()`: one reserved,
empty slot 0. -/
def newDispatchTable : List (Option EpollDispatch) := [none]

/-- `EpollContext::add_stdin`: the token is `dispatch_table.len()` at the
moment of registration (used as the epoll event data), then a `Stdin`
slot is pushed.  Returns the new table and the allocated token. -/
def add_stdin (t : List (Option EpollDispatch)) :
    List (Option EpollDispatch) × Nat :=
  (t ++ [some EpollDispatch.Stdin], t.length)

/-- `EpollContext::add_event`: same allocation scheme, pushing the
supplied kind. -/
def add_event (t : List (Option EpollDispatch)) (token : EpollDispatch) :
    List (Option EpollDispatch) × Nat :=
  (t ++ [some token], t.length)

/-- A registration call on the context: `add_stdin()` or
`add_event(fd, kind)`. -/
inductive Registration where
  | stdin
  | event (kind : EpollDispatch)
  deriving DecidableEq

/-- The kind a registration installs in its slot. -/
def regKind : Registration → EpollDispatch
  | .stdin => .Stdin
  | .event k => k

/-- Perform one registration call on a table. -/
def applyReg (t : List (Option EpollDispatch)) :
    Registration → List (Option EpollDispatch) × Nat
  | .stdin => add_stdin t
  | .event k => add_event t k

/-- Run a sequence of registration calls, collecting the tokens each one
was assigned. -/
def runRegs (t : List (Option EpollDispatch)) :
    List Registration → List (Option EpollDispatch) × List Nat
  | [] => (t, [])
  | r :: rs =>
    let p := applyReg t r
    let q := runRegs p.1 rs
    (q.1, p.2 :: q.2)

/-- Each registration appends exactly its slot. -/
lemma applyReg_fst (t : List (Option EpollDispatch)) (r : Registration) :
    (applyReg t r).1 = t ++ [some (regKind r)] := by
  cases r <;> rfl

/-- Each registration is assigned the table length at its moment. -/
lemma applyReg_snd (t : List (Option EpollDispatch)) (r : Registration) :
    (applyReg t r).2 = t.length := by
  cases r <;> rfl

/-- The table after a run is the starting table with one slot appended
per registration, holding the kind supplied at that registration. -/
lemma runRegs_fst (rs : List Registration) (t : List (Option EpollDispatch)) :
    (runRegs t rs).1 = t ++ rs.map (fun r => some (regKind r)) := by
  induction rs generalizing t with
  | nil => simp [runRegs]
  | cons r rs ih => simp [runRegs, ih, applyReg_fst]

/-- The tokens assigned over a run are consecutive, starting at the
length of the starting table. -/
lemma runRegs_snd (rs : List Registration) (t : List (Option EpollDispatch)) :
    (runRegs t rs).2 = List.range' t.length rs.length := by
  induction rs generalizing t with
  | nil => simp [runRegs]
  | cons r rs ih =>
    rw [List.length_cons, List.range'_succ]
    simp [runRegs, ih, applyReg_fst, applyReg_snd]

/-- C5: over any sequence of `add_stdin` / `add_event` calls on a fresh
`EpollContext`, the table length is the number of registrations plus one,
slot 0 stays reserved and empty, the i-th registration is assigned token
`i + 1` (the table length at its moment), its slot holds exactly the
supplied kind, and a run from any starting table preserves every
already-installed slot (entries are never reassigned). -/
theorem epoll_dispatch_table_invariants (rs : List Registration) :
    (runRegs newDispatchTable rs).1.length = rs.length + 1 ∧
    (runRegs newDispatchTable rs).1[0]? = some none ∧
    (runRegs newDispatchTable rs).2 = List.range' 1 rs.length ∧
    (∀ i r, rs[i]? = some r →
      (runRegs newDispatchTable rs).2[i]? = some (i + 1) ∧
      (runRegs newDispatchTable rs).1[i + 1]? = some (some (regKind r))) ∧
    (∀ (t : List (Option EpollDispatch)) (rs' : List Registration),
      (runRegs t rs').1.take t.length = t) := by
  refine ⟨?_, ?_, ?_, ?_, ?_⟩
  · simp [runRegs_fst, newDispatchTable]
  · simp [runRegs_fst, newDispatchTable]
  · simpa [newDispatchTable] using runRegs_snd rs newDispatchTable
  · intro i r h
    have hi : i < rs.length := by
      by_contra hlt
      rw [List.getElem?_eq_none (by omega)] at h
      cases h
    constructor
    · rw [runRegs_snd]
      simp [newDispatchTable, List.getElem?_range', hi, Nat.add_comm]
    · rw [runRegs_fst]
      have : (newDispatchTable ++ rs.map (fun r => some (regKind r)))[i + 1]? =
          (rs.map (fun r => some (regKind r)))[i]? := by
        simp [newDispatchTable]
      rw [this, List.getElem?_map, h]
      rfl
  · intro t rs'
    rw [runRegs_fst]
    exact List.take_left t _

/-- Witness for C5 on the registration sequence actually performed by
`Vm::new`: `add_stdin()` then `add_event(exit_evt, Exit)`. -/
theorem epoll_dispatch_table_invariants_witness :
    ([Registration.stdin, Registration.event EpollDispatch.Exit] : List Registration)[1]? =
      some (Registration.event EpollDispatch.Exit) ∧
    (runRegs newDispatchTable [Registration.stdin, Registration.event EpollDispatch.Exit]).2[1]? =
      some 2 ∧
    (runRegs newDispatchTable [Registration.stdin, Registration.event EpollDispatch.Exit]).1[2]? =
      some (some EpollDispatch.Exit) :=
  ⟨rfl,
    ((epoll_dispatch_table_invariants
        [Registration.stdin, Registration.event EpollDispatch.Exit]).2.2.2.1 1
        (Registration.event EpollDispatch.Exit) rfl).1,
    ((epoll_dispatch_table_invariants
        [Registration.stdin, Registration.event EpollDispatch.Exit]).2.2.2.1 1
        (Registration.event EpollDispatch.Exit) rfl).2⟩

/-- One host action performed by the monitor control loop. -/
inductive MonitorAction where
  | drainExitEvt
  | stdinToSerial
  deriving DecidableEq

/-- The dispatch table of the `Vm` after `Vm::new`: `EpollContext::new()`
followed by `add_stdin()` and `add_event(exit_evt, EpollDispatch::Exit)`. -/
def vmDispatchTable : List (Option EpollDispatch) :=
  (runRegs newDispatchTable
    [Registration.stdin, Registration.event EpollDispatch.Exit]).1

/-- Handling of one ready event in `Vm::control_loop`, given the token
carried in the event data.  The `Vec` index `dispatch_table[dispatch_idx]`
panics when the token is at or beyond the table length (modelled `none`).
An empty slot is skipped by the `if let Some` and the loop goes on.  An
`Exit` slot reads `exit_evt` once and then calls `libc::_exit(0)` (the
second component `some 0`); a `Stdin` slot reads raw stdin and queues the
bytes into the serial device. -/
def handleReadyEvent (table : List (Option EpollDispatch)) (idx : Nat) :
    Option (List MonitorAction × Option Nat) :=
  match table[idx]? with
  | none => none
  | some none => some ([], none)
  | some (some EpollDispatch.Exit) => some ([MonitorAction.drainExitEvt], some 0)
  | some (some EpollDispatch.Stdin) => some ([MonitorAction.stdinToSerial], none)

/-- The `for event in events.iter().take(num_events)` loop of
`Vm::control_loop` over the ready tokens of one epoll wait: actions
accumulate in order, and `_exit` terminates the process on the spot, so
nothing after an `Exit` event is executed. -/
def processBatch (table : List (Option EpollDispatch)) :
    List Nat → Option (List MonitorAction × Option Nat)
  | [] => some ([], none)
  | idx :: rest =>
    match handleReadyEvent table idx with
    | none => none
    | some (acts, some status) => some (acts, some status)
    | some (acts, none) =>
      match processBatch table rest with
      | none => none
      | some (acts2, ex) => some (acts ++ acts2, ex)

/-- C4: a ready event carrying the `Exit` token makes the control loop
drain `exit_evt` exactly once and terminate the process with status 0;
no later event of the batch (and no further loop iteration) is
processed, whatever follows. -/
theorem exit_event_terminates (table : List (Option EpollDispatch)) (idx : Nat)
    (rest : List Nat) (h : table[idx]? = some (some EpollDispatch.Exit)) :
    processBatch table (idx :: rest) = some ([MonitorAction.drainExitEvt], some 0) := by
  simp [processBatch, handleReadyEvent, h]

/-- Witness for C4 on the table built by `Vm::new`, where the `Exit`
token is 2, with further ready events pending behind it. -/
theorem exit_event_terminates_witness :
    vmDispatchTable[2]? = some (some EpollDispatch.Exit) ∧
    processBatch vmDispatchTable [2, 1, 1] = some ([MonitorAction.drainExitEvt], some 0) :=
  ⟨by decide, exit_event_terminates vmDispatchTable 2 [1, 1] (by decide)⟩

/-- Counterexample for C7 as stated: on the table built by `Vm::new`
(length 3), a ready event carrying token 3 is not ignored — the direct
`Vec` index into the dispatch table panics (modelled `none`). -/
theorem dispatch_lookup_out_of_range_cex :
    vmDispatchTable.length = 3 ∧
    handleReadyEvent vmDispatchTable 3 = none := by decide

/-- C7 (amended): a ready event whose token is within the table but maps
to an empty slot is ignored and the loop continues with the remaining
events; a token at or beyond the table length makes the dispatch-table
lookup panic instead. -/
theorem unknown_token_ignored (table : List (Option EpollDispatch)) (idx : Nat)
    (rest : List Nat) :
    (table[idx]? = some none →
      handleReadyEvent table idx = some ([], none) ∧
      processBatch table (idx :: rest) = processBatch table rest) ∧
    (table.length ≤ idx → handleReadyEvent table idx = none) := by
  constructor
  · intro h
    refine ⟨by simp [handleReadyEvent, h], ?_⟩
    cases hr : processBatch table rest <;>
      simp [processBatch, handleReadyEvent, h, hr]
  · intro h
    simp [handleReadyEvent, List.getElem?_eq_none h]

/-- Witness for C7 (amended): slot 0 of the `Vm::new` table is reserved
and empty, so token 0 is ignored; token 5 is past the length and the
lookup panics. -/
theorem unknown_token_ignored_witness :
    (vmDispatchTable[0]? = some none ∧
      handleReadyEvent vmDispatchTable 0 = some ([], none)) ∧
    (vmDispatchTable.length ≤ 5 ∧ handleReadyEvent vmDispatchTable 5 = none) :=
  ⟨⟨by decide, ((unknown_token_ignored vmDispatchTable 0 []).1 (by decide)).1⟩,
    ⟨by decide, (unknown_token_ignored vmDispatchTable 5 []).2 (by decide)⟩⟩

/-- The three legacy devices of `DeviceManager`. -/
inductive DeviceKind where
  | serial
  | i8042
  | pci
  deriving DecidableEq

/-- One `io_bus.insert(device, base, len)` call. -/
structure BusInsertion where
  dev : DeviceKind
  base : Nat
  len : Nat
  deriving DecidableEq

/-- `DeviceManager::register_devices`: the three insert calls with their
base port and length, in program order. -/
def register_devices : List BusInsertion :=
  [⟨DeviceKind.serial, 0x3f8, 0x8⟩,
   ⟨DeviceKind.i8042, 0x61, 0x4⟩,
   ⟨DeviceKind.pci, 0xcf8, 0x8⟩]

/-- The half-open port range `[base, base + len)` covered by an insertion. -/
def portRange (b : BusInsertion) : Nat × Nat := (b.base, b.base + b.len)

/-- Counterexample for C6 as stated: the PCI root insertion at `0xcf8`
with length `0x8` covers `0xcf8 .. 0xd00`, not `0xcf8 .. 0xcd0`, so the
claimed range list does not match the registered one. -/
theorem register_devices_pci_range_cex :
    register_devices.map portRange ≠ [(0x3f8, 0x400), (0x61, 0x65), (0xcf8, 0xcd0)] ∧
    portRange ⟨DeviceKind.pci, 0xcf8, 0x8⟩ = (0xcf8, 0xd00) := by decide

/-- C6 (amended): `register_devices` registers exactly three devices:
the serial UART over `0x3f8 .. 0x400`, the i8042 over `0x61 .. 0x65`,
and the PCI root configuration I/O over `0xcf8 .. 0xd00`. -/
theorem register_devices_ports :
    register_devices.length = 3 ∧
    register_devices.map (fun b => (b.dev, portRange b)) =
      [(DeviceKind.serial, (0x3f8, 0x400)),
       (DeviceKind.i8042, (0x61, 0x65)),
       (DeviceKind.pci, (0xcf8, 0xd00))] := by decide

/-- Arity handed to `Barrier::new` in `Vm::start`:
`(vcpu_count + 1) as usize` with `vcpu_count : u8`, so the addition is
performed modulo 2^8 (release-profile wrapping semantics). -/
def barrierArity (vcpu_count : Nat) : Nat := (vcpu_count + 1) % 256

/-- Counterexample for C8 as stated: at `vcpu_count = 255` the u8
addition wraps, producing a barrier arity of 0 instead of 256. -/
theorem barrier_arity_wrap_cex :
    barrierArity 255 = 0 ∧ barrierArity 255 ≠ 255 + 1 := by decide

/-- C8 (amended): for every configured `vcpu_count` in `[0, 255)` the
rendezvous barrier is created with arity exactly `vcpu_count + 1`; at
`vcpu_count = 255` the u8 arithmetic wraps. -/
theorem barrier_arity (vcpu_count : Nat) (h : vcpu_count < 255) :
    barrierArity vcpu_count = vcpu_count + 1 := by
  unfold barrierArity
  omega

/-- Witness for C8 (amended) at the default single-vCPU configuration. -/
theorem barrier_arity_witness : (1 : Nat) < 255 ∧ barrierArity 1 = 2 :=
  ⟨by decide, barrier_arity 1 (by decide)⟩

end VmmVm
